import Mathlib

/-!
Verification of the minishell parsing-and-execution engine.

Shallow embedding of `src/myshell.c` (duplicated near-verbatim in
`src/unnamed/part_001`): the quote-aware tokenizer `tokenize_sb`, the
whitespace trimmer `trim_sb`, the `;` statement splitter of `main`
(via `strtok_r`), the command builder `parse_command_from_tokens_sb`,
and the control flow of `execute_single_sb` / `execute_pipe_sb` and of
the `SIGCHLD` reaper `sigchld_handler`.

Strings are modelled as `List Char` (C strings contain no NUL), with
`String` wrappers at the interface. Process-level effects (fork, wait,
open, exec, chdir, printing) are modelled as explicit event traces or
outcome values parameterised by an environment describing which OS
calls succeed.
-/

namespace Minishell

/-- Whitespace characters skipped by the tokenizer and by `trim_sb`:
space, tab, newline (`*p == ' ' || *p == '\t' || *p == '\n'`). -/
def wsChar (c : Char) : Bool :=
  c = ' ' || c = '\t' || c = '\n'

/-- The four operator characters treated as standalone tokens:
`*p == '>' || *p == '<' || *p == '|' || *p == '&'`. -/
def opChar (c : Char) : Bool :=
  c = '>' || c = '<' || c = '|' || c = '&'

/-- The quoted-token scan of `tokenize_sb` (myshell.c lines 77–90).
Given the quote character `q` (already consumed) and the rest of the
input, it runs `while (*p && *p != quote) { if (*p == '\\' && quote ==
'"' && p[1]) p++; p++; }` and then copies the raw span `start..p`
verbatim into the token. Returns (token span, whether a closing quote
was found and consumed, remaining input after the closing quote). -/
def quoteScan (q : Char) : List Char → List Char × Bool × List Char
  | [] => ([], false, [])
  | [c] =>
    if c = q then ([], true, [])
    else ([c], false, [])
  | c :: d :: cs =>
    if c = q then ([], true, d :: cs)
    else if c = '\\' ∧ q = '"' then
      let (t, cl, r) := quoteScan q cs
      ('\\' :: d :: t, cl, r)
    else
      let (t, cl, r) := quoteScan q (d :: cs)
      (c :: t, cl, r)

/-- The word scan of `tokenize_sb` (myshell.c lines 100–112): a maximal
run of characters that are not whitespace and not one of `< > | &`.
Returns (word span, remaining input). -/
def wordScan : List Char → List Char × List Char
  | [] => ([], [])
  | c :: cs =>
    if wsChar c || opChar c then ([], c :: cs)
    else
      let (t, r) := wordScan cs
      (c :: t, r)

/-- Core loop of `tokenize_sb` (myshell.c lines 68–116). `room` is the
remaining token capacity (`ntok < max_tokens`); each loop iteration
emits exactly one token, so recursion on `room` mirrors the C loop.
Whitespace between tokens is skipped; a `"` or `'` starts a quoted
token (possibly empty); an operator character is emitted as a
one-character token; otherwise a maximal word is accumulated. -/
def tokenizeCore : List Char → Nat → List (List Char)
  | _, 0 => []
  | cs, room + 1 =>
    match cs.dropWhile wsChar with
    | [] => []
    | c :: rest =>
      if c = '"' ∨ c = '\'' then
        let (t, _, r) := quoteScan c rest
        t :: tokenizeCore r room
      else if opChar c then
        [c] :: tokenizeCore rest room
      else
        let (t, r) := wordScan (c :: rest)
        t :: tokenizeCore r room

/-- Constant `MAX_TOKENS` from myshell.c. -/
def MAX_TOKENS : Nat := 256

/-- Constant `MAX_ARGV` from myshell.c. -/
def MAX_ARGV : Nat := 128

/-- The tokenizer `tokenize_sb` as called from `main`: tokenize a statement string
with capacity `MAX_TOKENS`, producing owned token strings. -/
def tokenize_sb (s : String) : List String :=
  (tokenizeCore s.data MAX_TOKENS).map (fun t => String.mk t)

/-- The trimmer `trim_sb` (myshell.c lines 53–62) on character lists: drop leading
whitespace, then drop trailing whitespace. -/
def trimChars (cs : List Char) : List Char :=
  ((cs.dropWhile wsChar).reverse.dropWhile wsChar).reverse

/-- The trimmer `trim_sb` on strings. -/
def trim_sb (s : String) : String :=
  String.mk (trimChars s.data)

/-- The `Command` structure (myshell.c lines 40–45): NULL-terminated
`argv`, optional `infile` for `<`, optional `outfile` for `>`,
`background` flag for `&`. The `argv` list holds exactly the non-NULL
entries. -/
structure Command where
  argv : List String
  infile : Option String
  outfile : Option String
  background : Bool
deriving DecidableEq, Repr

/-- The empty command produced by `memset(cmd, 0, sizeof(Command))`. -/
def Command.empty : Command := ⟨[], none, none, false⟩

/-- Error messages written to stderr by the parser and by `main`. -/
inductive ErrMsg where
  | expectedFilenameAfterLt
  | expectedFilenameAfterGt
  | tooManyArgs
  | misplacedPipe
deriving DecidableEq, Repr

/-- Loop body of `parse_command_from_tokens_sb` (myshell.c lines
124–147), with the strings passed to `strdup` accumulated in `al` so
that allocation/release behaviour can be stated. `<`/`>` consume the
following token as `infile`/`outfile` (missing filename is an error
raised before any `strdup`); `&` sets `background`; any other token is
appended to `argv` unless `argi >= MAX_ARGV-1` (error before the
`strdup`). -/
def parseCmdAux : List String → Command → List String →
    Except ErrMsg Command × List String
  | [], cmd, al => (.ok cmd, al)
  | t :: rest, cmd, al =>
    if t = "<" then
      match rest with
      | [] => (.error .expectedFilenameAfterLt, al)
      | f :: rest' => parseCmdAux rest' { cmd with infile := some f } (al ++ [f])
    else if t = ">" then
      match rest with
      | [] => (.error .expectedFilenameAfterGt, al)
      | f :: rest' => parseCmdAux rest' { cmd with outfile := some f } (al ++ [f])
    else if t = "&" then
      parseCmdAux rest { cmd with background := true } al
    else if MAX_ARGV - 1 ≤ cmd.argv.length then
      (.error .tooManyArgs, al)
    else
      parseCmdAux rest { cmd with argv := cmd.argv ++ [t] } (al ++ [t])

/-- The builder `parse_command_from_tokens_sb` on a token range: result plus the
list of strings `strdup`ed into the (possibly partial) `Command`. -/
def parse_command_from_tokens_sb (toks : List String) :
    Except ErrMsg Command × List String :=
  parseCmdAux toks Command.empty []

/-- The strings released by `free_command_sb` (myshell.c lines
150–154): the `argv` entries up to the NULL terminator, then `infile`
and `outfile` when present. -/
def freedOf (c : Command) : List String :=
  c.argv ++ c.infile.toList ++ c.outfile.toList

/-- An execution performed by `main` for one statement: either
`execute_single_sb` on one command or `execute_pipe_sb` on two. -/
inductive Exec where
  | single (c : Command)
  | pipe (l r : Command)
deriving DecidableEq, Repr

/-- Observable effects of processing one statement (or one line):
executions performed, error messages reported, strings `strdup`ed into
`Command`s, and strings released by `free_command_sb`. (Token strings
are always freed by `free_tokens_sb`, so they are not tracked.) -/
structure StmtEffects where
  execs : List Exec
  errors : List ErrMsg
  allocd : List String
  freed : List String
deriving DecidableEq, Repr

/-- No effects. -/
def StmtEffects.empty : StmtEffects := ⟨[], [], [], []⟩

/-- Sequential composition of effects. -/
def StmtEffects.append (a b : StmtEffects) : StmtEffects :=
  ⟨a.execs ++ b.execs, a.errors ++ b.errors, a.allocd ++ b.allocd,
   a.freed ++ b.freed⟩

/-- The pipe-detection loop of `main` (myshell.c lines 314–317): index
of the first token equal to `"|"`, if any. -/
def findPipe : List String → Option Nat
  | [] => none
  | t :: rest =>
    if t = "|" then some 0
    else (findPipe rest).map (· + 1)

/-- The per-statement block of `main` (myshell.c lines 304–354): given
the tokens of one statement, detect a single pipe, parse one or two
`Command`s, and execute. On `ntok == 0` nothing happens; a misplaced
pipe (first pipe token at position 0 or `ntok-1`) reports a syntax
error and executes nothing; a parse failure skips the statement
(freeing a fully built left command but not the partial command that
failed); on success the command(s) are executed and then released. -/
def processStatement (toks : List String) : StmtEffects :=
  if toks = [] then StmtEffects.empty
  else
    match findPipe toks with
    | some i =>
      if i = 0 ∨ i = toks.length - 1 then
        ⟨[], [.misplacedPipe], [], []⟩
      else
        match parse_command_from_tokens_sb (toks.take i) with
        | (.error e, al) => ⟨[], [e], al, []⟩
        | (.ok left, lal) =>
          match parse_command_from_tokens_sb (toks.drop (i + 1)) with
          | (.error e, ral) => ⟨[], [e], lal ++ ral, freedOf left⟩
          | (.ok right, ral) =>
            ⟨[.pipe left right], [], lal ++ ral,
             freedOf left ++ freedOf right⟩
    | none =>
      match parse_command_from_tokens_sb toks with
      | (.error e, al) => ⟨[], [e], al, []⟩
      | (.ok cmd, al) => ⟨[.single cmd], [], al, freedOf cmd⟩

/-- Split on `';'` (every occurrence, keeping empty fields); the
fields that `strtok_r(lineptr, ";", &saveptr)` yields are exactly the
non-empty ones. -/
def splitSemis : List Char → List (List Char)
  | [] => [[]]
  | c :: cs =>
    if c = ';' then [] :: splitSemis cs
    else
      match splitSemis cs with
      | [] => [[c]]
      | t :: ts => (c :: t) :: ts

/-- The `strtok_r` iteration of `main` (myshell.c line 300): the
non-empty `';'`-separated fields of the trimmed line. -/
def strtokSemis (cs : List Char) : List (List Char) :=
  (splitSemis cs).filter (· ≠ [])

/-- The inner `while (sub)` loop of `main` (myshell.c lines 301–357):
trim each field, skip it when empty, otherwise tokenize and process
the statement. -/
def processStmts : List (List Char) → StmtEffects
  | [] => StmtEffects.empty
  | sub :: rest =>
    let subtrim := trimChars sub
    let eff :=
      if subtrim = [] then StmtEffects.empty
      else processStatement (tokenize_sb (String.mk subtrim))
    eff.append (processStmts rest)

/-- One iteration of `main`'s read-eval loop on an input line (after
the newline is stripped): trim, skip the line when empty, otherwise
split on `';'` and process each statement in order. -/
def processLine (s : String) : StmtEffects :=
  let l := trimChars s.data
  if l = [] then StmtEffects.empty
  else processStmts (strtokSemis l)

/-- The statements of a line as the spec describes them: the `';'`
separated substrings of the trimmed line, each trimmed, with empty
ones skipped. -/
def stmtsOfLine (s : String) : List String :=
  (((strtokSemis (trimChars s.data)).map trimChars).filter (· ≠ [])).map
    (fun cs => String.mk cs)

/-- Effects of tokenizing and processing a list of statements in
order. -/
def effectsOfStmts (l : List String) : StmtEffects :=
  l.foldr (fun st acc => (processStatement (tokenize_sb st)).append acc)
    StmtEffects.empty

/-! ## Execution models -/

/-- Environment describing the outcome of the OS calls made during
execution: whether `open` succeeds on a filename, whether `execvp`
succeeds on a program name, the exit status a successfully exec'ed
program eventually returns, whether `chdir` succeeds, the value of
`getenv("HOME")`, and whether `fork` succeeds. -/
structure ExecEnv where
  openOk : String → Bool
  execOk : String → Bool
  progExit : String → Nat
  chdirOk : String → Bool
  home : String
  forkOk : Bool

/-- What happens in the child branch of `execute_single_sb`
(myshell.c lines 172–193): after `signal(SIGINT, SIG_DFL)`, open
`infile` read-only (failure reports and `exit(1)`), open `outfile`
with create/truncate (failure reports and `exit(1)`), then `execvp`
(failure reports and `exit(127)`). Returns the child's exit status:
`some s` when the child exits through one of these failure paths or
runs the program to completion, following `env.progExit` on success. -/
def childExitStatus (env : ExecEnv) (cmd : Command) : Nat :=
  match cmd.infile with
  | some f =>
    if env.openOk f then
      match cmd.outfile with
      | some g =>
        if env.openOk g then
          if env.execOk (cmd.argv.headD "") then
            env.progExit (cmd.argv.headD "")
          else 127
        else 1
      | none =>
        if env.execOk (cmd.argv.headD "") then
          env.progExit (cmd.argv.headD "")
        else 127
    else 1
  | none =>
    match cmd.outfile with
    | some g =>
      if env.openOk g then
        if env.execOk (cmd.argv.headD "") then
          env.progExit (cmd.argv.headD "")
        else 127
      else 1
    | none =>
      if env.execOk (cmd.argv.headD "") then
        env.progExit (cmd.argv.headD "")
      else 127

/-- Whether the child branch of `execute_single_sb` exits through one
of its three failure paths (failed `open` of `infile` or `outfile`,
failed `execvp`) instead of running the program. -/
def childFails (env : ExecEnv) (cmd : Command) : Bool :=
  (match cmd.infile with | some f => !env.openOk f | none => false) ||
  (match cmd.outfile with | some g => !env.openOk g | none => false) ||
  !env.execOk (cmd.argv.headD "")

/-- Parent-side events of `execute_single_sb` (myshell.c lines
157–205), in program order. -/
inductive SEvent where
  | exitShell
  | chdir (dir : String)
  | reportError (what : String)
  | forkChild
  | printBgPid
  | waitChild
deriving DecidableEq, Repr

/-- The control flow of `execute_single_sb` as seen by the shell
process itself: empty `argv` is a no-op; `exit` terminates the shell;
`cd` calls `chdir` on `argv[1]` (or `$HOME`) and reports a failure;
otherwise fork (reporting failure), and in the parent either print the
background pid and return, or block in `waitpid` on the child. -/
def execute_single_sb (env : ExecEnv) (cmd : Command) : List SEvent :=
  match cmd.argv.head? with
  | none => []
  | some a0 =>
    if a0 = "exit" then [.exitShell]
    else if a0 = "cd" then
      let dir := cmd.argv[1]?.getD env.home
      if env.chdirOk dir then [.chdir dir]
      else [.chdir dir, .reportError "cd"]
    else
      if !env.forkOk then [.reportError "fork"]
      else if cmd.background then [.forkChild, .printBgPid]
      else [.forkChild, .waitChild]

/-- The exit status the parent observes through `waitpid` after a
foreground non-builtin launch: the child's exit status. -/
def foregroundWaitStatus (env : ExecEnv) (cmd : Command) : Nat :=
  childExitStatus env cmd

/-- Parent-side events of `execute_pipe_sb` (myshell.c lines
208–256), in program order. `closeEnd 0` / `closeEnd 1` are the
parent's `close(pipefd[0])` / `close(pipefd[1])`; `readPipe` and
`writePipe` would be parent reads/writes of the pipe (the code never
performs any). -/
inductive PEvent where
  | pipeCreate
  | reportError (what : String)
  | fork (who : Nat)
  | closeEnd (e : Nat)
  | readPipe
  | writePipe
  | printBgPids
  | wait (who : Nat)
deriving DecidableEq, Repr

/-- Environment for `execute_pipe_sb`: whether `pipe` and the two
`fork`s succeed. -/
structure PipeEnv where
  pipeOk : Bool
  fork1Ok : Bool
  fork2Ok : Bool

/-- The parent control flow of `execute_pipe_sb`: create the pipe
(failure reports and returns), fork the left child, fork the right
child (either failure reports and returns), close both pipe ends,
then either print both background pids or block on both children. -/
def execute_pipe_sb (env : PipeEnv) (left right : Command) : List PEvent :=
  if !env.pipeOk then [.reportError "pipe"]
  else if !env.fork1Ok then [.pipeCreate, .reportError "fork"]
  else if !env.fork2Ok then [.pipeCreate, .fork 1, .reportError "fork"]
  else
    [.pipeCreate, .fork 1, .fork 2, .closeEnd 0, .closeEnd 1] ++
      (if right.background || left.background then [.printBgPids]
       else [.wait 1, .wait 2])

/-! ## Reaper model

`sigchld_handler` (myshell.c lines 21–24) runs
`while (waitpid(-1, NULL, WNOHANG) > 0);` asynchronously whenever a
child dies, while the main flow may concurrently be blocked in
`waitpid(pid, &status, 0)` on a specific foreground child
(myshell.c line 201). The interleaving of the two reaping paths with
child termination is modelled as a transition system over the kernel's
view of the shell's children: `waitpid` semantics is that each
terminated child's status entry is reclaimed by exactly the first
waiter that claims it, and a waiter finding no such child gets
`ECHILD` and no status. -/

/-- State of the shell's children as the kernel sees them: pids still
running, terminated-but-unreaped pids (zombies), pids reaped by the
`SIGCHLD` handler's `waitpid(-1, WNOHANG)` loop, pids reaped by the
main flow's blocking `waitpid(pid, ...)`, and the pid the main flow is
currently blocking on, if any. -/
structure ReapState where
  running : List Nat
  zombies : List Nat
  reapedByHandler : List Nat
  reapedByWait : List Nat
  fgWait : Option Nat
deriving DecidableEq, Repr

/-- One interleaving step: a running child terminates; the handler's
non-blocking loop reaps some zombie (any child of the shell — the code
passes `-1`); the blocking foreground wait completes on its pid when
that pid is a zombie; or the blocking wait returns with `ECHILD`
(claiming no status) because its pid no longer exists. -/
inductive ReapStep : ReapState → ReapState → Prop where
  | childDies (s : ReapState) (p : Nat) (h : p ∈ s.running) :
      ReapStep s { s with running := s.running.erase p,
                          zombies := s.zombies ++ [p] }
  | handlerReap (s : ReapState) (p : Nat) (h : p ∈ s.zombies) :
      ReapStep s { s with zombies := s.zombies.erase p,
                          reapedByHandler := s.reapedByHandler ++ [p] }
  | fgWaitDone (s : ReapState) (p : Nat) (hw : s.fgWait = some p)
      (h : p ∈ s.zombies) :
      ReapStep s { s with zombies := s.zombies.erase p,
                          reapedByWait := s.reapedByWait ++ [p],
                          fgWait := none }
  | fgWaitEchild (s : ReapState) (p : Nat) (hw : s.fgWait = some p)
      (h1 : p ∉ s.zombies) (h2 : p ∉ s.running) :
      ReapStep s { s with fgWait := none }

/-- Reflexive-transitive closure of `ReapStep`. -/
inductive ReapReaches : ReapState → ReapState → Prop where
  | refl (s : ReapState) : ReapReaches s s
  | step {s t u : ReapState} (h : ReapStep s t) (h2 : ReapReaches t u) :
      ReapReaches s u

/-- A well-formed starting state: distinct pids, none terminated or
reaped yet, the main flow blocking on one of its running children. -/
def ReapState.init (pids : List Nat) (fg : Nat) : ReapState :=
  ⟨pids, [], [], [], some fg⟩

/-- The multiset of all child pids a state accounts for, over the four
lifecycle stages. Every step moves one pid between stages, so this
multiset is invariant along any interleaving. -/
def ReapState.allPids (s : ReapState) : Multiset Nat :=
  (s.running : Multiset Nat) + (s.zombies : Multiset Nat) +
    (s.reapedByHandler : Multiset Nat) + (s.reapedByWait : Multiset Nat)

end Minishell

namespace Minishell

/-! ## Lemmas about the quoted-token scan -/

/-- Inside double quotes, a backslash followed by any character `c`
(including `"` itself) keeps both the backslash and `c` in the token
and continues scanning after them: the escape affects only where the
token ends, not its contents. -/
theorem quoteScan_dquote_backslash (c : Char) (cs : List Char) :
    quoteScan '"' ('\\' :: c :: cs) =
      ('\\' :: c :: (quoteScan '"' cs).1, (quoteScan '"' cs).2) := by
  simp [quoteScan]

/-- Inside single quotes, a backslash is an ordinary character: it is
copied into the token and scanning continues with the next character.
-/
theorem quoteScan_squote_backslash (cs : List Char) :
    quoteScan '\'' ('\\' :: cs) =
      ('\\' :: (quoteScan '\'' cs).1, (quoteScan '\'' cs).2) := by
  match cs with
  | [] => simp [quoteScan]
  | d :: cs' => simp [quoteScan]

/-- The quoted-token scan copies its span verbatim: the input is
exactly the token span, followed by the closing quote when one was
found, followed by the unconsumed rest. In particular no character of
the span — backslashes included — is dropped or altered. -/
theorem quoteScan_verbatim : ∀ (q : Char) (cs : List Char),
    cs = (quoteScan q cs).1 ++
      (if (quoteScan q cs).2.1 then [q] else []) ++ (quoteScan q cs).2.2
  | _, [] => by simp [quoteScan]
  | q, [c] => by
    by_cases hc : c = q <;> simp [quoteScan, hc]
  | q, c :: d :: cs => by
    have ih1 := quoteScan_verbatim q cs
    have ih2 := quoteScan_verbatim q (d :: cs)
    by_cases hc : c = q
    · simp [quoteScan, hc]
    · by_cases hb : c = '\\' ∧ q = '"'
      · obtain ⟨rfl, rfl⟩ := hb
        rw [quoteScan_dquote_backslash]
        simpa using congrArg (fun l => '\\' :: d :: l) ih1
      · simp only [quoteScan, if_neg hc, if_neg hb]
        simpa using congrArg (fun l => c :: l) ih2

/-- The tokenizer uses the quoted-token scan for a token starting with
a double quote: the emitted token is exactly the scanned span. -/
theorem tokenizeCore_dquote (cs : List Char) (room : Nat) :
    tokenizeCore ('"' :: cs) (room + 1) =
      (quoteScan '"' cs).1 :: tokenizeCore (quoteScan '"' cs).2.2 room := by
  simp [tokenizeCore, List.dropWhile, wsChar]

/-- The tokenizer uses the quoted-token scan for a token starting with
a single quote. -/
theorem tokenizeCore_squote (cs : List Char) (room : Nat) :
    tokenizeCore ('\'' :: cs) (room + 1) =
      (quoteScan '\'' cs).1 :: tokenizeCore (quoteScan '\'' cs).2.2 room := by
  simp [tokenizeCore, List.dropWhile, wsChar]

/-! ## C1 -/

/-- C1, counterexample. On the input line `"a\"b"` the claim predicts
the single token `a"b` (backslash dropped, quote kept literally); the
tokenizer actually yields `a\"b` — the backslash stays in the token.
-/
theorem C1_counterexample :
    tokenize_sb "\"a\\\"b\"" = ["a\\\"b"] ∧
      ("a\\\"b" : String) ≠ "a\"b" := by
  constructor
  · decide
  · decide

/-- C1, amended. Inside double quotes a backslash immediately followed
by any character causes that character to be copied literally into the
token — but the backslash is copied too, not dropped: the escape only
prevents the following character from closing the quote. The quoted
span is always reproduced verbatim in the token. Inside single quotes
a backslash is an ordinary character. -/
theorem C1_escape_rule :
    (∀ (q : Char) (cs : List Char),
      cs = (quoteScan q cs).1 ++
        (if (quoteScan q cs).2.1 then [q] else []) ++ (quoteScan q cs).2.2) ∧
    (∀ (c : Char) (cs : List Char),
      quoteScan '"' ('\\' :: c :: cs) =
        ('\\' :: c :: (quoteScan '"' cs).1, (quoteScan '"' cs).2)) ∧
    (∀ cs : List Char,
      quoteScan '\'' ('\\' :: cs) =
        ('\\' :: (quoteScan '\'' cs).1, (quoteScan '\'' cs).2)) ∧
    (∀ (cs : List Char) (room : Nat),
      tokenizeCore ('"' :: cs) (room + 1) =
        (quoteScan '"' cs).1 :: tokenizeCore (quoteScan '"' cs).2.2 room) ∧
    (∀ (cs : List Char) (room : Nat),
      tokenizeCore ('\'' :: cs) (room + 1) =
        (quoteScan '\'' cs).1 :: tokenizeCore (quoteScan '\'' cs).2.2 room) :=
  ⟨quoteScan_verbatim, quoteScan_dquote_backslash, quoteScan_squote_backslash,
   tokenizeCore_dquote, tokenizeCore_squote⟩

/-! ## Lemmas about the word scan and C4 -/

/-- No character of a word token is whitespace or an operator: the
word scan stops at the first such character. -/
theorem wordScan_fst_not_op : ∀ (cs : List Char), ∀ c ∈ (wordScan cs).1,
    wsChar c = false ∧ opChar c = false
  | [] => by simp [wordScan]
  | c :: cs => by
    intro x hx
    by_cases h : (wsChar c || opChar c) = true
    · simp [wordScan, h] at hx
    · simp only [wordScan, h] at hx
      simp only [Bool.or_eq_true, not_or, Bool.not_eq_true] at h
      rw [if_neg (by simp [h.1, h.2])] at hx
      rcases List.mem_cons.mp hx with rfl | hx'
      · exact h
      · exact wordScan_fst_not_op cs x hx'

/-- The unconsumed remainder of the word scan is made of characters of
the input. -/
theorem wordScan_snd_subset : ∀ (cs : List Char), ∀ c ∈ (wordScan cs).2, c ∈ cs
  | [] => by simp [wordScan]
  | c :: cs => by
    intro x hx
    by_cases h : (wsChar c || opChar c) = true
    · simp only [wordScan, h, if_pos] at hx
      simpa using hx
    · simp only [wordScan, h] at hx
      rw [if_neg (by simp_all)] at hx
      exact List.mem_cons_of_mem c (wordScan_snd_subset cs x hx)

/-- On input without quote characters, every token the tokenizer
produces is either exactly one of the four operator tokens or contains
no operator character at all. -/
theorem tokenizeCore_ops_standalone : ∀ (room : Nat) (cs : List Char),
    (∀ c ∈ cs, c ≠ '"' ∧ c ≠ '\'') →
    ∀ t ∈ tokenizeCore cs room,
      (t = ['<'] ∨ t = ['>'] ∨ t = ['|'] ∨ t = ['&']) ∨
        ∀ c ∈ t, opChar c = false
  | 0, cs => by simp [tokenizeCore]
  | room + 1, cs => by
    intro hq t ht
    cases hd : cs.dropWhile wsChar with
    | nil => simp [tokenizeCore, hd] at ht
    | cons c rest =>
      simp only [tokenizeCore, hd] at ht
      have hsub : ∀ x ∈ c :: rest, x ∈ cs := by
        intro x hx
        exact (List.dropWhile_suffix wsChar).sublist.subset (hd ▸ hx)
      have hcq : c ≠ '"' ∧ c ≠ '\'' := hq c (hsub c (List.mem_cons_self c rest))
      have hrest : ∀ x ∈ rest, x ≠ '"' ∧ x ≠ '\'' := fun x hx =>
        hq x (hsub x (List.mem_cons_of_mem c hx))
      rw [if_neg (by simp [hcq.1, hcq.2])] at ht
      by_cases hop : opChar c = true
      · rw [if_pos hop] at ht
        rcases List.mem_cons.mp ht with rfl | ht'
        · left
          simp only [opChar, Bool.or_eq_true, decide_eq_true_eq] at hop
          rcases hop with ((h | h) | h) | h <;> simp [h]
        · exact tokenizeCore_ops_standalone room rest hrest t ht'
      · rw [if_neg hop] at ht
        rcases List.mem_cons.mp ht with rfl | ht'
        · right
          intro x hx
          exact (wordScan_fst_not_op (c :: rest) x hx).2
        · refine tokenizeCore_ops_standalone room (wordScan (c :: rest)).2
            (fun x hx => ?_) t ht'
          rcases List.mem_cons.mp (wordScan_snd_subset (c :: rest) x hx) with
            rfl | hx'
          · exact hcq
          · exact hrest x hx'

/-! ## C4 -/

/-- C4, confirmed. On a line with no quote characters (so that every
occurrence of an operator character is unquoted), every token the
tokenizer emits is either exactly one of the one-character operator
tokens `<`, `>`, `|`, `&` or a word containing no operator character;
and tokenizing `ls>out.txt` yields exactly `ls`, `>`, `out.txt`. -/
theorem C4_ops_own_tokens :
    (∀ s : String, (∀ c ∈ s.data, c ≠ '"' ∧ c ≠ '\'') →
      ∀ t ∈ tokenize_sb s,
        (t = "<" ∨ t = ">" ∨ t = "|" ∨ t = "&") ∨
          ∀ c ∈ t.data, opChar c = false) ∧
    tokenize_sb "ls>out.txt" = ["ls", ">", "out.txt"] := by
  constructor
  · intro s hs t ht
    obtain ⟨l, hl, rfl⟩ := List.mem_map.mp ht
    have := tokenizeCore_ops_standalone MAX_TOKENS s.data hs l hl
    rcases this with (rfl | rfl | rfl | rfl) | hno
    · exact Or.inl (by decide)
    · exact Or.inl (by decide)
    · exact Or.inl (by decide)
    · exact Or.inl (by decide)
    · exact Or.inr hno
  · decide

/-- C4, witness: the first token of `ls>out.txt` is the word `ls`,
which contains no operator character. -/
theorem C4_ops_own_tokens_witness :
    (("ls" : String) = "<" ∨ ("ls" : String) = ">" ∨
      ("ls" : String) = "|" ∨ ("ls" : String) = "&") ∨
      ∀ c ∈ ("ls" : String).data, opChar c = false :=
  C4_ops_own_tokens.1 "ls>out.txt" (by decide) "ls" (by decide)

/-! ## C2 -/

/-- C2, counterexample. The statement `a | b |` has a pipe token at
the last position, yet `main` does not report a misplaced pipe: only
the first pipe token's position is checked, the trailing `|` lands in
the right command's range and becomes a plain argument, and the
pipeline is executed. -/
theorem C2_counterexample :
    ["a", "|", "b", "|"].getLast? = some "|" ∧
      (processStatement ["a", "|", "b", "|"]).execs =
        [.pipe ⟨["a"], none, none, false⟩ ⟨["b", "|"], none, none, false⟩] := by
  constructor
  · decide
  · decide

/-- C2, amended. If the *first* pipe token of a statement is at the
first or the last position, `main` reports a misplaced-pipe syntax
error and executes nothing (a later pipe token at the last position is
not checked; it is passed to the right command as a plain argument).
In particular `| ls` and `ls |` report the error and execute nothing.
-/
theorem C2_misplaced_pipe :
    (∀ (toks : List String) (i : Nat), findPipe toks = some i →
      i = 0 ∨ i = toks.length - 1 →
      processStatement toks = ⟨[], [.misplacedPipe], [], []⟩) ∧
    processLine "| ls" = ⟨[], [.misplacedPipe], [], []⟩ ∧
    processLine "ls |" = ⟨[], [.misplacedPipe], [], []⟩ := by
  refine ⟨?_, by decide, by decide⟩
  intro toks i h hi
  have hne : toks ≠ [] := by
    intro h0
    rw [h0] at h
    simp [findPipe] at h
  simp [processStatement, hne, h, hi]

/-- C2, witness: the theorem applied to the tokens of `| ls`, whose
first pipe token is at position 0. -/
theorem C2_misplaced_pipe_witness :
    processStatement ["|", "ls"] = ⟨[], [.misplacedPipe], [], []⟩ :=
  C2_misplaced_pipe.1 ["|", "ls"] 0 (by decide) (Or.inl rfl)

/-! ## C3 -/

/-- C3, evaluation at the failing input. Statement `a <`: the parser
reports the expected-filename syntax error and nothing is executed —
but the string `a` already `strdup`ed into the partial `Command`'s
argv is never freed (`main` frees only the token array on this path),
contradicting the claim that resources already allocated for the
aborted Command are released. With a filename present (`a < f`) the
filename is consumed as `input_source`, not as an argument, and all
allocations are released. -/
theorem C3_abort_behaviour :
    processStatement ["a", "<"] =
      ⟨[], [.expectedFilenameAfterLt], ["a"], []⟩ ∧
    processStatement ["a", "<", "f"] =
      ⟨[.single ⟨["a"], some "f", none, false⟩], [], ["a", "f"], ["a", "f"]⟩ := by
  constructor
  · decide
  · decide

/-! ## C5 -/

/-- Prepending no effects is the identity. -/
theorem StmtEffects.empty_append (a : StmtEffects) :
    StmtEffects.empty.append a = a := by
  cases a
  simp [StmtEffects.append, StmtEffects.empty]

/-- The statement loop of `main` computes exactly the effects of the
non-empty trimmed statements, in order: fields that trim to nothing
contribute nothing. -/
theorem processStmts_eq_effects : ∀ pieces : List (List Char),
    processStmts pieces =
      effectsOfStmts (((pieces.map trimChars).filter (· ≠ [])).map
        (fun cs => String.mk cs))
  | [] => rfl
  | sub :: rest => by
    have ih := processStmts_eq_effects rest
    by_cases h : trimChars sub = []
    · simp [processStmts, h, List.filter_cons, StmtEffects.empty_append, ih]
    · simp only [processStmts, List.map_cons, List.filter_cons]
      rw [if_neg h, if_pos (by simp [h])]
      simp [effectsOfStmts, ih]

/-- C5, confirmed. A line consisting only of whitespace (or empty)
produces no executions, no errors and no allocations; and in general a
line's effects are exactly the effects of its non-empty trimmed
`;`-separated statements — empty substrings from repeated or trailing
`;` are never parsed or executed. -/
theorem C5_blank_lines_skipped :
    (∀ s : String, (∀ c ∈ s.data, wsChar c = true) →
      processLine s = StmtEffects.empty) ∧
    (∀ s : String, processLine s = effectsOfStmts (stmtsOfLine s)) := by
  constructor
  · intro s hs
    have hdw : s.data.dropWhile wsChar = [] :=
      List.dropWhile_eq_nil_iff.mpr hs
    have ht : trimChars s.data = [] := by
      simp [trimChars, hdw]
    simp [processLine, ht]
  · intro s
    by_cases h : trimChars s.data = []
    · simp [processLine, h, stmtsOfLine, strtokSemis, splitSemis,
        effectsOfStmts]
    · simp only [processLine, if_neg h]
      rw [processStmts_eq_effects]
      rfl

/-- C5, witness: a tab-and-spaces line produces no effects. -/
theorem C5_blank_lines_skipped_witness :
    processLine "  \t " = StmtEffects.empty :=
  C5_blank_lines_skipped.1 "  \t " (by decide)

/-! ## C6 -/

/-- C6, confirmed. In the child of a non-builtin command: a failed
`execvp` (with any redirections opened successfully) exits with status
127; a failed open of `input_source` exits with status 1; a failed
open of `output_target` (with `input_source` opening fine) exits with
status 1. Whenever the child fails on one of these paths the status
the parent's blocking `waitpid` observes is non-zero, and 127 and 1
are distinct and non-zero. -/
theorem C6_child_statuses :
    ∀ (env : ExecEnv) (cmd : Command),
      ((∀ f, cmd.infile = some f → env.openOk f = true) →
        (∀ g, cmd.outfile = some g → env.openOk g = true) →
        env.execOk (cmd.argv.headD "") = false →
        childExitStatus env cmd = 127) ∧
      ((∀ f, cmd.infile = some f → env.openOk f = false →
        childExitStatus env cmd = 1)) ∧
      ((∀ f, cmd.infile = some f → env.openOk f = true) →
        ∀ g, cmd.outfile = some g → env.openOk g = false →
        childExitStatus env cmd = 1) ∧
      (childFails env cmd = true → foregroundWaitStatus env cmd ≠ 0) ∧
      ((127 : Nat) ≠ 1 ∧ (127 : Nat) ≠ 0 ∧ (1 : Nat) ≠ 0) := by
  intro env cmd
  refine ⟨?_, ?_, ?_, ?_, by decide⟩
  · intro h1 h2 h3
    rcases hin : cmd.infile with _ | f <;> rcases hout : cmd.outfile with _ | g <;>
      simp_all [childExitStatus]
  · intro f hf hopen
    rcases hout : cmd.outfile with _ | g <;> simp_all [childExitStatus]
  · intro h1 g hg hopen
    rcases hin : cmd.infile with _ | f <;> simp_all [childExitStatus]
  · intro hf
    rcases hin : cmd.infile with _ | f <;> rcases hout : cmd.outfile with _ | g <;>
      simp_all [childFails, childExitStatus, foregroundWaitStatus] <;>
      split_ifs <;> simp_all

/-- C6, witness: a command whose program cannot be exec'ed, with no
redirections, exits with status 127. -/
theorem C6_child_statuses_witness :
    childExitStatus
      ⟨fun _ => true, fun _ => false, fun _ => 0, fun _ => true, "h", true⟩
      ⟨["nosuch"], none, none, false⟩ = 127 :=
  (C6_child_statuses
      ⟨fun _ => true, fun _ => false, fun _ => 0, fun _ => true, "h", true⟩
      ⟨["nosuch"], none, none, false⟩).1
    (fun f hf => by cases hf) (fun g hg => by cases hg) rfl

/-! ## C7 -/

/-- C7, confirmed. When pipe creation and both forks succeed, the
parent of a two-command pipeline: performs no read or write on the
pipe; closes both pipe endpoints immediately after spawning both
children (events 4 and 5, right after the two forks) and before any
waiting or reporting; if either command's background flag is set it
reports the pids and performs no blocking wait, otherwise it blocks on
the termination of both children and reports no background pids. -/
theorem C7_pipe_parent :
    ∀ (env : PipeEnv) (l r : Command),
      env.pipeOk = true → env.fork1Ok = true → env.fork2Ok = true →
      (PEvent.readPipe ∉ execute_pipe_sb env l r ∧
        PEvent.writePipe ∉ execute_pipe_sb env l r) ∧
      (execute_pipe_sb env l r).take 5 =
        [.pipeCreate, .fork 1, .fork 2, .closeEnd 0, .closeEnd 1] ∧
      ((r.background || l.background) = true →
        (execute_pipe_sb env l r).drop 5 = [.printBgPids] ∧
          ∀ w, PEvent.wait w ∉ execute_pipe_sb env l r) ∧
      ((r.background || l.background) = false →
        (execute_pipe_sb env l r).drop 5 = [.wait 1, .wait 2] ∧
          PEvent.printBgPids ∉ execute_pipe_sb env l r) := by
  intro env l r hp h1 h2
  cases hbg : (r.background || l.background) <;>
    simp [execute_pipe_sb, hp, h1, h2, hbg]

/-- C7, witness: a concrete foreground pipeline in an environment
where all spawning succeeds. -/
theorem C7_pipe_parent_witness :
    (PEvent.readPipe ∉
        execute_pipe_sb ⟨true, true, true⟩ ⟨["a"], none, none, false⟩
          ⟨["b"], none, none, false⟩ ∧
      PEvent.writePipe ∉
        execute_pipe_sb ⟨true, true, true⟩ ⟨["a"], none, none, false⟩
          ⟨["b"], none, none, false⟩) ∧
    (execute_pipe_sb ⟨true, true, true⟩ ⟨["a"], none, none, false⟩
        ⟨["b"], none, none, false⟩).take 5 =
      [.pipeCreate, .fork 1, .fork 2, .closeEnd 0, .closeEnd 1] ∧
    (((⟨["b"], none, none, false⟩ : Command).background ||
        (⟨["a"], none, none, false⟩ : Command).background) = true →
      (execute_pipe_sb ⟨true, true, true⟩ ⟨["a"], none, none, false⟩
          ⟨["b"], none, none, false⟩).drop 5 = [.printBgPids] ∧
        ∀ w, PEvent.wait w ∉
          execute_pipe_sb ⟨true, true, true⟩ ⟨["a"], none, none, false⟩
            ⟨["b"], none, none, false⟩) ∧
    (((⟨["b"], none, none, false⟩ : Command).background ||
        (⟨["a"], none, none, false⟩ : Command).background) = false →
      (execute_pipe_sb ⟨true, true, true⟩ ⟨["a"], none, none, false⟩
          ⟨["b"], none, none, false⟩).drop 5 = [.wait 1, .wait 2] ∧
        PEvent.printBgPids ∉
          execute_pipe_sb ⟨true, true, true⟩ ⟨["a"], none, none, false⟩
            ⟨["b"], none, none, false⟩) :=
  C7_pipe_parent ⟨true, true, true⟩ ⟨["a"], none, none, false⟩
    ⟨["b"], none, none, false⟩ rfl rfl rfl

/-! ## C8 -/

/-- One interleaving step moves a single pid between lifecycle stages
(or merely clears the wait slot), so the multiset of pids accounted
for is unchanged. -/
theorem reapStep_allPids {s t : ReapState} (h : ReapStep s t) :
    t.allPids = s.allPids := by
  cases h with
  | childDies p hp =>
    have key : (↑(s.running.erase p) : Multiset Nat) + {p} = ↑s.running := by
      rw [← Multiset.coe_erase, add_comm, Multiset.singleton_add,
        Multiset.cons_erase (by exact_mod_cast hp)]
    simp only [ReapState.allPids, ← Multiset.coe_add, Multiset.coe_singleton]
    rw [← key]
    abel
  | handlerReap p hp =>
    have key : (↑(s.zombies.erase p) : Multiset Nat) + {p} = ↑s.zombies := by
      rw [← Multiset.coe_erase, add_comm, Multiset.singleton_add,
        Multiset.cons_erase (by exact_mod_cast hp)]
    simp only [ReapState.allPids, ← Multiset.coe_add, Multiset.coe_singleton]
    rw [← key]
    abel
  | fgWaitDone p hw hp =>
    have key : (↑(s.zombies.erase p) : Multiset Nat) + {p} = ↑s.zombies := by
      rw [← Multiset.coe_erase, add_comm, Multiset.singleton_add,
        Multiset.cons_erase (by exact_mod_cast hp)]
    simp only [ReapState.allPids, ← Multiset.coe_add, Multiset.coe_singleton]
    rw [← key]
    abel
  | fgWaitEchild p hw h1 h2 =>
    rfl

/-- Along any reachable interleaving the multiset of accounted pids is
unchanged. -/
theorem reapReaches_allPids {s t : ReapState} (h : ReapReaches s t) :
    t.allPids = s.allPids := by
  induction h with
  | refl s => rfl
  | step hst _ ih => rw [ih, reapStep_allPids hst]

/-- C8, counterexample. Start with one running foreground child (pid
1) that the main flow is blocking-waiting on. The child dies, the
`SIGCHLD` notification fires, and the handler's `waitpid(-1, WNOHANG)`
loop reaps it — while the main flow is still waiting on that very pid.
The non-blocking reaper has claimed the status of a foreground child
the main flow is blocking-waiting on, which the claim says never
happens. -/
theorem C8_counterexample :
    ReapReaches (ReapState.init [1] 1) ⟨[], [], [1], [], some 1⟩ ∧
      (⟨[], [], [1], [], some 1⟩ : ReapState).fgWait = some 1 ∧
      1 ∈ (⟨[], [], [1], [], some 1⟩ : ReapState).reapedByHandler := by
  refine ⟨?_, rfl, by decide⟩
  exact ReapReaches.step (ReapStep.childDies _ 1 (by decide))
    (ReapReaches.step (ReapStep.handlerReap _ 1 (by decide))
      (ReapReaches.refl _))

/-- C8, amended. The two reaping paths never both reclaim the same
child's status: in every reachable interleaving a pid reaped by the
asynchronous handler is never also reaped by the blocking foreground
wait (each status entry is claimed exactly once, by whichever path
gets it first). However, the handler may well claim the status of the
foreground child the main flow is blocking-waiting on — the blocking
wait then completes without a status (`ECHILD`). -/
theorem C8_no_double_reap :
    ∀ (pids : List Nat) (fg : Nat) (s : ReapState), pids.Nodup →
      ReapReaches (ReapState.init pids fg) s →
      ∀ p, p ∈ s.reapedByHandler → p ∉ s.reapedByWait := by
  intro pids fg s hnd hr p hH hW
  have hinit : (ReapState.init pids fg).allPids = ↑pids := by
    simp [ReapState.allPids, ReapState.init]
  have hall : s.allPids = ↑pids := by rw [reapReaches_allPids hr, hinit]
  have hnodup : s.allPids.Nodup := by
    rw [hall]
    exact Multiset.coe_nodup.mpr hnd
  have hcount := Multiset.nodup_iff_count_le_one.mp hnodup p
  have h1 : 0 < (s.reapedByHandler : Multiset Nat).count p :=
    Multiset.count_pos.mpr (by exact_mod_cast hH)
  have h2 : 0 < (s.reapedByWait : Multiset Nat).count p :=
    Multiset.count_pos.mpr (by exact_mod_cast hW)
  have h3 : 2 ≤ s.allPids.count p := by
    simp only [ReapState.allPids, Multiset.count_add]
    omega
  omega

/-- C8, witness: in the interleaving where the handler reaps the dead
foreground child, the blocking wait indeed claims nothing. -/
theorem C8_no_double_reap_witness :
    (1 : Nat) ∉ (⟨[], [], [1], [], some 1⟩ : ReapState).reapedByWait :=
  C8_no_double_reap [1] 1 ⟨[], [], [1], [], some 1⟩ (by decide)
    (ReapReaches.step (ReapStep.childDies _ 1 (by decide))
      (ReapReaches.step (ReapStep.handlerReap _ 1 (by decide))
        (ReapReaches.refl _)))
    1 (by decide)

/-! ## C9 -/

/-- C9, confirmed. Statement splitting happens on the raw trimmed line
before quote-aware tokenization, so a `;` inside double quotes still
terminates the statement: `echo "a;b"` is split into the two
statements `echo "a` and `b"`, which execute as `echo a` (unterminated
quote consumes to end of statement) and as the lone word `b"` — not as
one statement with a quoted semicolon argument. -/
theorem C9_split_before_tokenize :
    stmtsOfLine "echo \"a;b\"" = ["echo \"a", "b\""] ∧
      (processLine "echo \"a;b\"").execs =
        [.single ⟨["echo", "a"], none, none, false⟩,
         .single ⟨["b\""], none, none, false⟩] := by
  constructor
  · decide
  · decide

/-! ## C10 -/

/-- C10, confirmed. The builtins are dispatched before any fork,
background or redirection handling. A command whose first argument is
`exit` produces exactly the shell-exit event, whatever its background
flag and redirections — `exit &` still terminates the shell
immediately. A command whose first argument is `cd` performs the
directory change in the shell process itself (to `argv[1]` if present,
else `$HOME`): no child is forked, no background pid is printed, and
no wait happens, whatever the flags. -/
theorem C10_builtins_before_flags :
    ∀ (env : ExecEnv) (cmd : Command),
      (cmd.argv.head? = some "exit" →
        execute_single_sb env cmd = [.exitShell]) ∧
      (cmd.argv.head? = some "cd" →
        (execute_single_sb env cmd).head? =
            some (.chdir (cmd.argv[1]?.getD env.home)) ∧
          ∀ e ∈ execute_single_sb env cmd,
            e ≠ SEvent.forkChild ∧ e ≠ SEvent.printBgPid ∧
              e ≠ SEvent.waitChild) := by
  intro env cmd
  constructor
  · intro h
    simp [execute_single_sb, h]
  · intro h
    by_cases hc : env.chdirOk (cmd.argv[1]?.getD env.home) = true <;>
      simp [execute_single_sb, h, hc]

/-- C10, witness: `exit` with the background flag set still produces
exactly the shell-exit event. -/
theorem C10_builtins_before_flags_witness :
    execute_single_sb
      ⟨fun _ => true, fun _ => true, fun _ => 0, fun _ => true, "h", true⟩
      ⟨["exit"], none, none, true⟩ = [.exitShell] :=
  (C10_builtins_before_flags
      ⟨fun _ => true, fun _ => true, fun _ => 0, fun _ => true, "h", true⟩
      ⟨["exit"], none, none, true⟩).1 rfl

end Minishell
